import Mathlib

/-!
Verification of the benchmark orchestration core of the ollama-monitor
repository against its natural-language specification.

The Python source is shallowly embedded:
* floats become rationals (`ℚ`), machine ints become `ℕ`;
* Python dicts with string keys become association lists
  (`List (String × _)`) with insertion-order-preserving update;
* the `random` module is modelled by an oracle `g : ℕ → ℕ`: every call to
  `random.sample` / `random.choice` / `random.shuffle` consumes successive
  values of the oracle (a cursor is threaded through), so every concrete
  randomised execution of the source corresponds to some oracle;
* wall-clock readings, streamed chunks and thread-pool task outcomes are
  inputs (they come from the outside world), and the values the worker
  reads from its asynchronously-set `is_paused` / `is_cancelled` flags
  are given by a schedule, one value per read the code performs.
-/

namespace OllamaMonitor

/-- `TestPrompt` dataclass of `utils/performance_tester.py`. -/
structure TestPrompt where
  category : String
  name : String
  content : String
  deriving DecidableEq, Inhabited

/-- `TestResult` dataclass of `utils/performance_tester.py`.
`timestamp` (a formatted wall-clock string) is kept as an opaque string. -/
structure TestResult where
  prompt : String
  prompt_content : String
  prompt_type : String := "未分类"
  response_text : String := ""
  first_token_latency : ℚ := 0
  tokens_per_second : ℚ := 0
  total_tokens : ℕ := 0
  total_time : ℚ := 0
  timestamp : String := ""
  error : Option String := none
  deriving DecidableEq, Inhabited

/-- Python truthiness of `r.error` (`None` and `""` are falsy): used by
`PerformanceReport.__post_init__` (`any(r.error ...)`) and by the worker's
final aggregation (`if not r.error`). -/
def errFalsy (r : TestResult) : Bool := r.error.getD "" == ""

/-- Values stored in the `test_params` dict of the report. -/
inductive ParamVal where
  | bool (b : Bool)
  | str (s : String)
  | num (q : ℚ)
  deriving DecidableEq

/-- A Python dict with string keys, as an insertion-ordered association list. -/
abbrev TestParams := List (String × ParamVal)

/-- `d[k] = v` on a Python dict: replace in place if the key exists,
append otherwise. -/
def setParam (ps : TestParams) (k : String) (v : ParamVal) : TestParams :=
  if ps.any (fun kv => kv.1 == k) then
    ps.map (fun kv => if kv.1 == k then (k, v) else kv)
  else ps ++ [(k, v)]

/-- `d.get(k)` on a Python dict. -/
def getParam (ps : TestParams) (k : String) : Option ParamVal :=
  (ps.find? (fun kv => kv.1 == k)).map Prod.snd

/-- `PerformanceReport` dataclass of `utils/performance_tester.py`
(after `__post_init__`; see `mkPerformanceReport`). `system_info` is an
opaque snapshot passed through verbatim. -/
structure PerformanceReport where
  model_name : String
  system_info : List (String × String)
  test_params : TestParams
  results : List TestResult
  avg_first_token_latency : ℚ := 0
  avg_tokens_per_second : ℚ := 0
  performance_rating : String := "未评级"
  deriving DecidableEq

/-- Constructing a `PerformanceReport`: the dataclass fields followed by
`__post_init__` (`utils/performance_tester.py` lines 64-81), which returns
early when `results` is empty or any result has a truthy `error`, and
otherwise computes the averages over ALL results and a rating with
inclusive (`>=`) thresholds. -/
def mkPerformanceReport (model_name : String) (system_info : List (String × String))
    (test_params : TestParams) (results : List TestResult) : PerformanceReport :=
  let base : PerformanceReport :=
    { model_name := model_name, system_info := system_info,
      test_params := test_params, results := results }
  if results.isEmpty || results.any (fun r => !(errFalsy r)) then base
  else
    let n : ℚ := results.length
    let avgFtl := (results.map (fun r => r.first_token_latency)).sum / n
    let avgTps := (results.map (fun r => r.tokens_per_second)).sum / n
    let rating :=
      if 60 ≤ avgTps then "极佳"
      else if 30 ≤ avgTps then "优秀"
      else if 10 ≤ avgTps then "良好"
      else "较差"
    { base with avg_first_token_latency := avgFtl,
                avg_tokens_per_second := avgTps,
                performance_rating := rating }

/-! ## Prompt catalog and balanced selection
(`PerformanceTester.select_balanced_prompts`,
`utils/performance_tester.py` lines 316-426). -/

/-- `prompts_by_category`: a dict mapping a category name to its prompts. -/
abbrev Catalog := List (String × List TestPrompt)

/-- `prompts_by_category.get(c, [])` (and, at the call sites where the key
is known to be present, `prompts_by_category[c]`). -/
def lookupCat (catalog : Catalog) (c : String) : List TestPrompt :=
  ((catalog.find? (fun kv => kv.1 == c)).map Prod.snd).getD []

/-- `random.sample(l, k)`: `k` distinct positions of `l`, chosen by the
oracle `g` from cursor `cur`; returns the sample and the new cursor.
Call sites guarantee `k ≤ l.length`; on an empty list the sample stops
(unreachable at the call sites). -/
def randSample {α : Type} (g : ℕ → ℕ) : ℕ → ℕ → List α → List α × ℕ
  | cur, 0, _ => ([], cur)
  | cur, Nat.succ k, l =>
    if h : 0 < l.length then
      let i := g cur % l.length
      let rest := randSample g (cur + 1) k (l.eraseIdx i)
      (l.get ⟨i, Nat.mod_lt _ h⟩ :: rest.1, rest.2)
    else ([], cur)

/-- `random.choice(l)`: one oracle-chosen element. Call sites guarantee
`l ≠ []`; the `default` is unreachable there. -/
def randChoice {α : Type} [Inhabited α] (g : ℕ → ℕ) (cur : ℕ) (l : List α) :
    α × ℕ :=
  (l.getD (g cur % l.length) default, cur + 1)

/-- `random.shuffle(l)`: an oracle-chosen permutation (a full-length
sample without replacement). -/
def randShuffle {α : Type} (g : ℕ → ℕ) (cur : ℕ) (l : List α) : List α × ℕ :=
  randSample g cur l.length l

/-- First distribution round of `select_balanced_prompts` (lines 354-367):
for each category in order, sample `min initial_per_category |cat|`
prompts without replacement and append them. -/
def perCategoryPhase (catalog : Catalog) (g : ℕ → ℕ) (ipc : ℕ) :
    List String → ℕ → List TestPrompt → List TestPrompt × ℕ
  | [], cur, sel => (sel, cur)
  | c :: cs, cur, sel =>
    let catPrompts := lookupCat catalog c
    if catPrompts.isEmpty then perCategoryPhase catalog g ipc cs cur sel
    else
      let count := min ipc catPrompts.length
      if 0 < count then
        let picked := randSample g cur count catPrompts
        perCategoryPhase catalog g ipc cs picked.2 (sel ++ picked.1)
      else perCategoryPhase catalog g ipc cs cur sel

/-- `selected_by_category` initialisation (lines 379-382): for each
available category, the already-selected prompts whose `category` field
matches it, in selection order. -/
def sbcInit (avail : List String) (sel : List TestPrompt) :
    List (String × List TestPrompt) :=
  avail.map (fun c => (c, sel.filter (fun p => p.category == c)))

/-- `selected_by_category.get(c, [])`. -/
def sbcGet (sbc : List (String × List TestPrompt)) (c : String) : List TestPrompt :=
  ((sbc.find? (fun kv => kv.1 == c)).map Prod.snd).getD []

/-- `selected_by_category[c].append(p)` (the key exists at the call site). -/
def sbcAppend (sbc : List (String × List TestPrompt)) (c : String)
    (p : TestPrompt) : List (String × List TestPrompt) :=
  sbc.map (fun kv => if kv.1 == c then (kv.1, kv.2 ++ [p]) else kv)

/-- The head of the round-robin loop (lines 385-395): categories popped
from the cycle whose prompts are all already selected are discarded
without a pick; `findUsable` returns the first category with an unused
prompt, the rest of the cycle after it, and its unused prompts. -/
def findUsable (catalog : Catalog) (sbc : List (String × List TestPrompt)) :
    List String → Option (String × List String × List TestPrompt)
  | [] => none
  | c :: rest =>
    let unused := (lookupCat catalog c).filter
      (fun p => decide (¬ p ∈ sbcGet sbc c))
    if unused.isEmpty then findUsable catalog sbc rest
    else some (c, rest, unused)

/-- Round-robin phase of `select_balanced_prompts` (lines 385-404), with
the loop state `(remaining, cycle, selected, selected_by_category)`:
while prompts are still needed and the cycle is non-empty, pick one
unused prompt from the next usable category, and put the category back at
the end of the cycle when it had at least two unused prompts and more are
still needed. Returns `(selected, remaining at exit, cursor)`. -/
def roundRobin (catalog : Catalog) (g : ℕ → ℕ) :
    ℕ → ℕ → List String → List TestPrompt → List (String × List TestPrompt) →
    List TestPrompt × ℕ × ℕ
  | 0, cur, _, sel, _ => (sel, 0, cur)
  | Nat.succ r, cur, cycle, sel, sbc =>
    match findUsable catalog sbc cycle with
    | none => (sel, Nat.succ r, cur)
    | some (c, rest, unused) =>
      let picked := randChoice g cur unused
      let cycle2 := if 2 ≤ unused.length ∧ 0 < r then rest ++ [c] else rest
      roundRobin catalog g r picked.2 cycle2 (sel ++ [picked.1]) (sbcAppend sbc c picked.1)

/-- With-replacement fallback of `select_balanced_prompts` (lines
406-420): while prompts are still needed, pick one from the concatenation
of all available categories (recomputed each iteration, as in the
source), stopping early only if that pool is empty. -/
def fillWithReplacement (catalog : Catalog) (avail : List String) (g : ℕ → ℕ) :
    ℕ → ℕ → List TestPrompt → List TestPrompt × ℕ
  | 0, cur, sel => (sel, cur)
  | Nat.succ r, cur, sel =>
    let allAvailable := avail.flatMap (fun c => lookupCat catalog c)
    if allAvailable.isEmpty then (sel, cur)
    else
      let picked := randChoice g cur allAvailable
      fillWithReplacement catalog avail g r picked.2 (sel ++ [picked.1])

/-- The quota-filling part of `select_balanced_prompts` (lines 349-420),
after the custom-prompt reservation: given the selection so far, the
remaining (non-custom) available categories and the oracle cursor, run
the per-category distribution, the round-robin pass and the
with-replacement fallback. -/
def selectFill (catalog : Catalog) (g : ℕ → ℕ) (num_prompts : ℕ)
    (avail : List String) (sel1 : List TestPrompt) (cur1 : ℕ) :
    List TestPrompt × ℕ :=
  let remaining1 := num_prompts - sel1.length
  if 0 < remaining1 ∧ !avail.isEmpty then
    let ipc := remaining1 / avail.length
    let s2 := perCategoryPhase catalog g ipc avail cur1 sel1
    let remaining2 := num_prompts - s2.1.length
    if 0 < remaining2 then
      let shuf := randShuffle g s2.2 avail
      let rr := roundRobin catalog g remaining2 shuf.2 shuf.1 s2.1 (sbcInit avail s2.1)
      fillWithReplacement catalog avail g rr.2.1 rr.2.2 rr.1
    else s2
  else (sel1, cur1)

/-- `PerformanceTester.select_balanced_prompts` (lines 316-426). -/
def select_balanced_prompts (catalog : Catalog) (g : ℕ → ℕ) (num_prompts : ℕ) :
    List TestPrompt :=
  let availableCategories := (catalog.filter (fun kv => !kv.2.isEmpty)).map Prod.fst
  if availableCategories.isEmpty then []
  else
    let customPrompts := lookupCat catalog "自定义"
    let step1 : List TestPrompt × List String × ℕ :=
      if customPrompts.isEmpty then ([], availableCategories, 0)
      else
        let customCount := min customPrompts.length (max 1 (num_prompts / 5))
        let picked := randSample g 0 customCount customPrompts
        (picked.1, availableCategories.erase "自定义", picked.2)
    let filled := selectFill catalog g num_prompts step1.2.1 step1.1 step1.2.2
    let shuffled := randShuffle g filled.2 filled.1
    shuffled.1.take num_prompts

/-! ## Single test case
(`PerformanceTester.test_case`, `utils/performance_tester.py` lines
1026-1168).  The streamed response is an input: a finite list of events,
each carrying the chunk received, its arrival wall-clock time, and the
value of `cancel_event.is_set()` that `test_case` reads just after
receiving it (the event is set asynchronously by the timeout timer, so
this read is oracle data), followed by how the iteration ends: normally,
or by the generator raising an exception (network errors, malformed
JSON, ...). -/

/-- One streamed JSON chunk, with the keys `test_case` inspects.  A chunk
may also carry an `error` key (yielded by
`OllamaClient.generate_completion` on a request-level failure); note that
`test_case` never looks at it. -/
structure Chunk where
  response : Option String := none
  eval_count : Option ℕ := none
  eval_duration : Option ℕ := none
  error : Option String := none
  deriving DecidableEq, Inhabited

/-- One received chunk: arrival time (seconds), the chunk, and the value
of `cancel_event.is_set()` read by `test_case` right after receiving it. -/
structure StreamEvent where
  time : ℚ
  chunk : Chunk
  cancelSet : Bool := false
  deriving DecidableEq, Inhabited

/-- How the chunk iteration ends after the listed events. -/
inductive StreamEnd where
  | done
  | raises (msg : String)
  deriving DecidableEq, Inhabited

/-- The whole observable behaviour of one `generate_completion` stream. -/
structure StreamInput where
  startTime : ℚ
  sentTime : ℚ
  endTime : ℚ
  events : List StreamEvent
  streamEnd : StreamEnd := StreamEnd.done
  deriving DecidableEq, Inhabited

/-- The loop-local accumulators of `test_case` (lines 1051-1096). -/
structure LoopState where
  first_token_time : Option ℚ := none
  total_tokens : ℕ := 0
  response_text : String := ""
  token_count_from_api : ℕ := 0
  eval_duration_from_api : ℕ := 0
  deriving DecidableEq, Inhabited

/-- The chunk loop of `test_case` (lines 1071-1096): on each received
chunk it first re-checks the timeout flag and raises `TimeoutError` if
set; otherwise it records the first token time (only on the very first
chunk, and only if that chunk carries a `response`), accumulates response
text and the local token count, and keeps the last server-reported
`eval_count` / `eval_duration`.  The `String` on the error side is the
exception message. -/
def streamLoop (timeoutMsg : String) : List StreamEvent → ℕ → LoopState →
    Except String LoopState
  | [], _, st => Except.ok st
  | e :: rest, i, st =>
    if e.cancelSet then Except.error timeoutMsg
    else
      let ftt := if i = 0 ∧ st.first_token_time = none ∧ e.chunk.response.isSome
        then some e.time else st.first_token_time
      let st1 : LoopState :=
        match e.chunk.response with
        | some s =>
          { st with first_token_time := ftt,
                    response_text := st.response_text ++ s,
                    total_tokens := st.total_tokens + 1 }
        | none => { st with first_token_time := ftt }
      let st2 : LoopState :=
        { st1 with token_count_from_api := e.chunk.eval_count.getD st1.token_count_from_api,
                   eval_duration_from_api := e.chunk.eval_duration.getD st1.eval_duration_from_api }
      streamLoop timeoutMsg rest (i + 1) st2

/-- The outcome of the whole `try` body up to the metric computation:
either the final loop state or the message of the exception raised
(timeout observed on a received chunk, or the stream raising). -/
def loopOutcome (timeoutMsg : String) (s : StreamInput) : Except String LoopState :=
  match streamLoop timeoutMsg s.events 0 {} with
  | Except.error m => Except.error m
  | Except.ok st =>
    match s.streamEnd with
    | StreamEnd.done => Except.ok st
    | StreamEnd.raises m => Except.error m

/-- `total_tokens` after the loop (lines 1103-1105): the server-reported
`eval_count` overrides the local count when positive. -/
def finalTokens (st : LoopState) : ℕ :=
  if 0 < st.token_count_from_api then st.token_count_from_api else st.total_tokens

/-- `generation_time` (lines 1117-1123): server-reported `eval_duration`
(nanoseconds) when positive, else the locally measured time from the
first token to the end, else 0. -/
def generationTime (s : StreamInput) (st : LoopState) : ℚ :=
  if 0 < st.eval_duration_from_api then (st.eval_duration_from_api : ℚ) / 1000000000
  else
    match st.first_token_time with
    | some t => s.endTime - t
    | none => 0

/-- Truncated display form of the prompt (lines 1139-1140 and 1157). -/
def displayPrompt (prompt : String) : String :=
  if 50 < prompt.length then prompt.take 50 ++ "..." else prompt

/-- `PerformanceTester.test_case` (lines 1026-1168): reduce one streamed
response to a `TestResult`; every exception raised inside the `try` body
is caught by the final `except` and converted into a `TestResult` whose
`error` is set and whose metrics are all zero, so the function is total. -/
def test_case (prompt : String) (prompt_type : String) (timeout : ℕ)
    (s : StreamInput) : TestResult :=
  let timeoutMsg := "测试执行超时（超过" ++ toString timeout ++ "秒）"
  match loopOutcome timeoutMsg s with
  | Except.ok st =>
    let total_tokens := finalTokens st
    let total_time := (s.endTime - s.startTime) * 1000
    let first_token_latency :=
      match st.first_token_time with
      | some t => (t - s.sentTime) * 1000
      | none => 0
    let generation_time := generationTime s st
    let tokens_per_second : ℚ :=
      if 1 < total_tokens ∧ 0 < generation_time then
        ((total_tokens : ℚ) - 1) / generation_time
      else if total_tokens = 1 ∧ 0 < generation_time then
        1 / generation_time
      else 0
    { prompt := displayPrompt prompt,
      prompt_content := prompt,
      prompt_type := prompt_type,
      response_text := st.response_text,
      first_token_latency := first_token_latency,
      tokens_per_second := tokens_per_second,
      total_tokens := total_tokens,
      total_time := total_time }
  | Except.error m =>
    { prompt := displayPrompt prompt,
      prompt_content := prompt,
      prompt_type := prompt_type,
      response_text := "测试错误: " ++ m,
      first_token_latency := 0,
      tokens_per_second := 0,
      total_tokens := 0,
      total_time := 0,
      error := some m }

/-! ## The benchmark worker
(`PerformanceTestWorker`, `ui/tabs/performance_tab.py` lines 1985-2499).

The worker's interaction with the outside world is abstracted as
follows.  Qt signal emissions become a `Signal` trace.  The outcome of
each `future.result(timeout=task_timeout)` call in the per-round
processing loop is an oracle (`TaskOutcome`): the `TestResult` produced
by `run_single_test` (a total function, see `test_case`), a
`TimeoutError`, or another exception.  The values the worker reads from
its `is_cancelled` / `is_paused` flags — set asynchronously by
`cancel_test` / `pause_test` / `resume_test` on the UI thread — are given
by a schedule, one entry per read the code performs: at the top of each
round, on each pause-wait iteration, and before processing each future.
`parallelOk` summarises the external version / reconfigure-restart checks
of lines 2143-2163: when it is `false` and more than one concurrent user
was requested, the worker degrades `concurrent_users` to 1.  A fatal
exception raised by the body before any round (e.g. the initial
system-info or service-restart collaborator call failing) is modelled by
`fatal`; per-task failures are not exceptions of the body. -/

/-- The Qt signals the worker emits. -/
inductive Signal where
  | progressUpdated (completed total : ℕ)
  | testRoundCompleted (r : TestResult) (label : String)
  | testCompleted (report : PerformanceReport)
  | errorOccurred (msg : String)

/-- Outcome of `future.result(timeout=task_timeout)` for one slot. -/
inductive TaskOutcome where
  | ok (r : TestResult)
  | timedOut
  | raised (msg : String)

/-- External-world inputs of one worker run. -/
structure WorkerEnv where
  fatal : Option String := none
  parallelOk : Bool := true
  testDate : String := ""
  systemInfo : List (String × String) := []
  warmup : TestResult
  outcome : ℕ → ℕ → TaskOutcome
  pick : ℕ → ℕ := fun _ => 0

/-- The flag values read by the worker: `cancelAtRound r` is the
`is_cancelled` read at the top of round iteration `r` (0-based),
`pauseReads r` the successive `(is_paused, is_cancelled)` pairs read by
the pause-wait loop of that iteration (entries beyond the list are
`(false, false)`, i.e. the run is not paused from then on), and
`cancelAtSlot r s` the `is_cancelled` read before processing the future
of slot `s` (1-based) of that iteration. -/
structure WorkerSched where
  cancelAtRound : ℕ → Bool := fun _ => false
  pauseReads : ℕ → List (Bool × Bool) := fun _ => []
  cancelAtSlot : ℕ → ℕ → Bool := fun _ _ => false

/-- The worker state threaded through the round loop: the report's
`results` list, the report's `test_params` dict, and the signals emitted
so far inside the loop. -/
structure RunSt where
  results : List TestResult
  params : TestParams
  sigs : List Signal

/-- The pause-wait loop (lines 2193-2199):
`while self.is_paused and not self.is_cancelled:` — each iteration writes
`test_params['paused']` and `test_params['completion_status']` and
sleeps; the cancellation flag is re-read on every iteration. -/
def pauseLoop : List (Bool × Bool) → TestParams → TestParams
  | [], ps => ps
  | pc :: rest, ps =>
    if pc.1 && !pc.2 then
      pauseLoop rest (setParam (setParam ps "paused" (ParamVal.bool true))
        "completion_status" (ParamVal.str "暂停完成"))
    else ps

/-- `task_timeout` (line 2184). -/
def taskTimeout : ℕ := 180

/-- The display label of a test (lines 2222-2228 and 2298-2302):
`"(round,slot)"` when more than one concurrent user, else the round
number. -/
def slotLabel (concurrent_users : ℕ) (round slot : ℕ) : String :=
  if 1 < concurrent_users then
    "(" ++ toString round ++ "," ++ toString slot ++ ")"
  else toString round

/-- Processing one slot's future (lines 2280-2351): a resolved future
contributes its `TestResult`; a `TimeoutError` or another exception is
converted into a synthesized error result built from the stored round
info (the claim's error containment: one result is appended either way). -/
def slotResult (env : WorkerEnv) (concurrent_users : ℕ) (round slot : ℕ)
    (p : TestPrompt) : TestResult × String :=
  let label := slotLabel concurrent_users round slot
  match env.outcome round slot with
  | TaskOutcome.ok r => (r, label)
  | TaskOutcome.timedOut =>
    let msg := "任务执行超时（超过" ++ toString taskTimeout ++ "秒）"
    ({ prompt := p.name, prompt_content := p.content, prompt_type := p.category,
       response_text := msg, error := some msg }, label)
  | TaskOutcome.raised e =>
    let msg := "执行测试时出错: " ++ e
    ({ prompt := p.name, prompt_content := p.content, prompt_type := p.category,
       response_text := msg, error := some e }, label)

/-- The future-processing loop of one round (lines 2266-2351): futures
are waited for in submission order; before each one the cancellation
flag is read, and if set the remaining futures are cancelled and the
loop breaks (their results are dropped).  Returns the results appended
to the report and the `test_round_completed` emissions, in order. -/
def processSlots (env : WorkerEnv) (sched : WorkerSched) (concurrent_users : ℕ)
    (round_num : ℕ) : List TestPrompt → ℕ → List TestResult × List Signal
  | [], _ => ([], [])
  | p :: rest, slot =>
    if sched.cancelAtSlot round_num slot then ([], [])
    else
      let rl := slotResult env concurrent_users (round_num + 1) slot p
      let tail := processSlots env sched concurrent_users round_num rest (slot + 1)
      (rl.1 :: tail.1, Signal.testRoundCompleted rl.1 rl.2 :: tail.2)

/-- The round loop (lines 2187-2351), iterating `round_num` from 0 with
`fuel` rounds left: check the cancellation flag (break if set), run the
pause-wait loop, slice this round's prompts
(`prompts[round_num*C : round_num*C + C]`), submit and process the
slots, and recurse. -/
def roundsLoop (env : WorkerEnv) (sched : WorkerSched) (concurrent_users : ℕ)
    (prompts : List TestPrompt) : ℕ → ℕ → RunSt → RunSt
  | _, 0, st => st
  | round_num, Nat.succ fuel, st =>
    if sched.cancelAtRound round_num then st
    else
      let params2 := pauseLoop (sched.pauseReads round_num) st.params
      let current_prompts := (prompts.drop (round_num * concurrent_users)).take concurrent_users
      let rs := processSlots env sched concurrent_users round_num current_prompts 1
      roundsLoop env sched concurrent_users prompts (round_num + 1) fuel
        { results := st.results ++ rs.1, params := params2, sigs := st.sigs ++ rs.2 }

/-- The final-report block of `run` (lines 2361-2389): when there is more
than just the warm-up result, compute the model-load time from the
warm-up latency and the average of the POSITIVE non-warm-up latencies,
and the averages and rating (strict thresholds) from the non-warm-up
results with no (truthy) error and POSITIVE tokens/sec. -/
def finalizeReport (report : PerformanceReport) : PerformanceReport :=
  match report.results with
  | r0 :: r1 :: rest =>
    let tail := r1 :: rest
    let other_latencies := (tail.filter (fun r => decide (0 < r.first_token_latency))).map
      (fun r => r.first_token_latency)
    let report1 :=
      if !other_latencies.isEmpty then
        let avg_latency := other_latencies.sum / (other_latencies.length : ℚ)
        let model_load_time := max 0 (r0.first_token_latency - avg_latency) / 1000
        let tp2 := setParam (setParam report.test_params "model_load_time"
          (ParamVal.num model_load_time)) "avg_latency" (ParamVal.num avg_latency)
        { report with test_params := tp2 }
      else report
    let valid := tail.filter (fun r => errFalsy r && decide (0 < r.tokens_per_second))
    if !valid.isEmpty then
      let avgFtl := (valid.map (fun r => r.first_token_latency)).sum / (valid.length : ℚ)
      let avgTps := (valid.map (fun r => r.tokens_per_second)).sum / (valid.length : ℚ)
      let rating :=
        if 60 < avgTps then "极佳"
        else if 30 < avgTps then "优秀"
        else if 10 < avgTps then "良好"
        else "较差"
      { report1 with avg_first_token_latency := avgFtl,
                     avg_tokens_per_second := avgTps,
                     performance_rating := rating }
    else report1
  | _ => report

/-- The worker state after the warm-up round and the round loop of
`run` (the non-fatal path of lines 2079-2351). `baseParams` is the
`test_params` dict handed to the worker's constructor, which records
`rounds` and `concurrent_users` (lines 2007-2008); `run` copies it and
adds `test_date` (line 2095). -/
def runState (catalog : Catalog) (rounds concurrent_users : ℕ)
    (baseParams : TestParams) (env : WorkerEnv) (sched : WorkerSched) : RunSt :=
  let total_tests := rounds * concurrent_users
  let tp0 := setParam (setParam (setParam baseParams
    "rounds" (ParamVal.num (rounds : ℚ))) "concurrent_users" (ParamVal.num (concurrent_users : ℚ)))
    "test_date" (ParamVal.str env.testDate)
  let effC := if 1 < concurrent_users && !env.parallelOk then 1 else concurrent_users
  let prompts := select_balanced_prompts catalog env.pick total_tests
  roundsLoop env sched effC prompts 0 rounds
    { results := [env.warmup],
      params := tp0,
      sigs := [Signal.testRoundCompleted env.warmup "0"] }

/-- The report handed to `test_completed` when the body does not raise:
the initial report (empty results, hence `__post_init__` leaves the
averages and rating at their defaults) with the accumulated results and
parameters, finalized by the block of lines 2361-2389. -/
def finalReport (model : String) (catalog : Catalog) (rounds concurrent_users : ℕ)
    (baseParams : TestParams) (env : WorkerEnv) (sched : WorkerSched) :
    PerformanceReport :=
  let st := runState catalog rounds concurrent_users baseParams env sched
  let report0 := mkPerformanceReport model env.systemInfo st.params []
  finalizeReport { report0 with results := st.results, test_params := st.params }

/-- `PerformanceTestWorker.run` (lines 2032-2404) as its emitted signal
trace: progress initialisation, the warm-up emission, the per-round
emissions, the final progress update and `test_completed` — or, when the
body raises, the `except` clause's single `error_occurred`. -/
def workerRun (model : String) (catalog : Catalog) (rounds concurrent_users : ℕ)
    (baseParams : TestParams) (env : WorkerEnv) (sched : WorkerSched) :
    List Signal :=
  match env.fatal with
  | some msg => [Signal.errorOccurred msg]
  | none =>
    let total_tests := rounds * concurrent_users
    let st := runState catalog rounds concurrent_users baseParams env sched
    Signal.progressUpdated 0 total_tests :: st.sigs ++
      [Signal.progressUpdated total_tests total_tests,
       Signal.testCompleted (finalReport model catalog rounds concurrent_users baseParams env sched)]

/-- Terminal signals in the sense of claim C10. -/
def isTerminal : Signal → Bool
  | Signal.testCompleted _ => true
  | Signal.errorOccurred _ => true
  | _ => false

/-! ## Definitions modelled from the spec's words, for refinement
comparison with the code's aggregation. -/

/-- Modelled from the spec's words (claim C7): arithmetic mean of
tokens/sec over exactly the non-warm-up, non-error results; 0 when none
qualify. -/
def specAvgTps (results : List TestResult) : ℚ :=
  let q := (results.drop 1).filter (fun r => r.error == none)
  if q.isEmpty then 0 else (q.map (fun r => r.tokens_per_second)).sum / (q.length : ℚ)

/-- Modelled from the spec's words (claim C7): arithmetic mean of
first-token latency over exactly the non-warm-up, non-error results. -/
def specAvgFtl (results : List TestResult) : ℚ :=
  let q := (results.drop 1).filter (fun r => r.error == none)
  if q.isEmpty then 0 else (q.map (fun r => r.first_token_latency)).sum / (q.length : ℚ)

/-- Modelled from the spec's words (claim C8):
`max(0, warmupLatencyMs - mean(ALL non-warm-up latencies)) / 1000`, unset
when no non-warm-up results exist. -/
def specModelLoadTime (results : List TestResult) : Option ℚ :=
  match results with
  | r0 :: t1 :: ts =>
    some (max 0 (r0.first_token_latency
      - ((t1 :: ts).map (fun r => r.first_token_latency)).sum / (((t1 :: ts).length : ℕ) : ℚ)) / 1000)
  | _ => none

/-! ## Concrete inputs used to evaluate the embedding at specific
points (counterexamples and witnesses). -/

def pDemo : TestPrompt := { category := "编程", name := "代码生成", content := "请写一个函数" }

def pCustom : TestPrompt := { category := "自定义", name := "自定义一", content := "你好" }

/-- A catalog whose only non-empty category is the custom one. -/
def customOnlyCatalog : Catalog := [("自定义", [pCustom])]

def catalogDemo : Catalog := [("编程", [pDemo])]

def gZero : ℕ → ℕ := fun _ => 0

def warmupDemo : TestResult :=
  { prompt := "模型载入测试", prompt_content := "你好", prompt_type := "载入测试",
    first_token_latency := 1000 }

def okResultDemo : TestResult :=
  { prompt := "r", prompt_content := "r", first_token_latency := 200,
    tokens_per_second := 50, total_tokens := 10, total_time := 500 }

def errResultDemo : TestResult :=
  { prompt := "e", prompt_content := "e", error := some "boom" }

/-- A non-error result with zero throughput (e.g. a stream that ended
with no tokens): excluded by the worker's `tokens_per_second > 0` filter
although the spec's average should include it. -/
def zeroTpsResultDemo : TestResult :=
  { prompt := "z", prompt_content := "z", first_token_latency := 100,
    tokens_per_second := 0 }

def envDemo : WorkerEnv :=
  { warmup := warmupDemo, outcome := fun _ _ => TaskOutcome.ok okResultDemo }

def schedIdle : WorkerSched := {}

/-- Cancellation requested after round 1 has fully completed: the read
at the top of round iteration 0 is false, every later read is true. -/
def schedCancelAfterRound1 : WorkerSched :=
  { cancelAtRound := fun r => decide (1 ≤ r),
    cancelAtSlot := fun r _ => decide (1 ≤ r) }

def repC7 : PerformanceReport :=
  { model_name := "m", system_info := [], test_params := [],
    results := [warmupDemo, zeroTpsResultDemo, okResultDemo] }

def okLatency500Demo : TestResult := { okResultDemo with first_token_latency := 500 }

def repC8 : PerformanceReport :=
  { model_name := "m", system_info := [], test_params := [],
    results := [warmupDemo, errResultDemo, okLatency500Demo] }

/-- A finished two-result report whose single valid result has the given
throughput: probes the worker-side rating thresholds. -/
def ratingProbe (q : ℚ) : PerformanceReport :=
  finalizeReport
    { model_name := "m", system_info := [], test_params := [],
      results := [warmupDemo, { okResultDemo with tokens_per_second := q }] }

/-- A report built through `__post_init__` from one error-free result
with the given throughput: probes the constructor-side thresholds. -/
def postInitProbe (q : ℚ) : PerformanceReport :=
  mkPerformanceReport "m" [] [] [{ okResultDemo with tokens_per_second := q }]

def chunkErrDemo : Chunk := { error := some "connection refused" }

def evErrDemo : StreamEvent := { time := 1, chunk := chunkErrDemo }

/-- A stream whose only chunk is a request-level error chunk yielded by
the client, after which the stream ends normally. -/
def streamErrDemo : StreamInput :=
  { startTime := 0, sentTime := 0, endTime := 1, events := [evErrDemo] }

def chunkA : Chunk := { response := some "a" }

def chunkB : Chunk := { response := some "b" }

def chunkC : Chunk :=
  { response := some "c", eval_count := some 30, eval_duration := some 2000000000 }

def evA : StreamEvent := { time := 2, chunk := chunkA }

def evB : StreamEvent := { time := 3, chunk := chunkB }

def evC : StreamEvent := { time := 4, chunk := chunkC }

/-- A normally completing stream: three text chunks, the last carrying
`eval_count = 30` and `eval_duration = 2s`. -/
def streamOkDemo : StreamInput :=
  { startTime := 0, sentTime := 1, endTime := 4, events := [evA, evB, evC] }

/-- The loop state `streamOkDemo` reduces to. -/
def loopStateDemo : LoopState :=
  { first_token_time := some 2, total_tokens := 3, response_text := "abc",
    token_count_from_api := 30, eval_duration_from_api := 2000000000 }

def evTimeoutDemo : StreamEvent := { time := 6, chunk := {}, cancelSet := true }

/-- A stream delivering one chunk after the timeout timer has fired. -/
def streamTimeoutDemo : StreamInput :=
  { startTime := 0, sentTime := 0, endTime := 6, events := [evTimeoutDemo] }

/-! ## Supporting lemmas: balanced selection -/

theorem randSample_length {α : Type} (g : ℕ → ℕ) :
    ∀ (k cur : ℕ) (l : List α), ((randSample g cur k l).1).length = min k l.length := by
  intro k
  induction k with
  | zero => intro cur l; simp [randSample]
  | succ k ih =>
    intro cur l
    by_cases h : 0 < l.length
    · rw [randSample, dif_pos h]
      simp only [List.length_cons, ih]
      rw [List.length_eraseIdx, if_pos (Nat.mod_lt _ h)]
      omega
    · rw [randSample, dif_neg h]
      simp only [List.length_nil]
      omega

theorem randShuffle_length {α : Type} (g : ℕ → ℕ) (cur : ℕ) (l : List α) :
    ((randShuffle g cur l).1).length = l.length := by
  simp [randShuffle, randSample_length]

theorem lookupCat_eq (catalog : Catalog) (c : String) (ps : List TestPrompt)
    (hnodup : (catalog.map Prod.fst).Nodup) (hmem : (c, ps) ∈ catalog) :
    lookupCat catalog c = ps := by
  induction catalog with
  | nil => cases hmem
  | cons kv rest ih =>
    rw [List.map_cons, List.nodup_cons] at hnodup
    rcases List.mem_cons.mp hmem with h | h
    · rw [← h]
      simp [lookupCat]
    · have hne : (kv.1 == c) = false := by
        apply beq_eq_false_iff_ne.mpr
        intro he
        exact hnodup.1 (he ▸ List.mem_map_of_mem Prod.fst h)
      rw [lookupCat, List.find?_cons, hne]
      exact ih hnodup.2 h

theorem perCategoryPhase_length_le (catalog : Catalog) (g : ℕ → ℕ) (ipc : ℕ) :
    ∀ (cs : List String) (cur : ℕ) (sel : List TestPrompt),
      ((perCategoryPhase catalog g ipc cs cur sel).1).length ≤ sel.length + ipc * cs.length := by
  intro cs
  induction cs with
  | nil => intro cur sel; simp [perCategoryPhase]
  | cons c cs ih =>
    intro cur sel
    rw [perCategoryPhase]
    by_cases hemp : (lookupCat catalog c).isEmpty
    · rw [if_pos hemp]
      refine (ih cur sel).trans ?_
      rw [List.length_cons, Nat.mul_succ]
      omega
    · rw [if_neg hemp]
      by_cases hcnt : 0 < min ipc (lookupCat catalog c).length
      · rw [if_pos hcnt]
        refine (ih _ _).trans ?_
        rw [List.length_append, randSample_length, List.length_cons, Nat.mul_succ]
        have : min (min ipc (lookupCat catalog c).length) (lookupCat catalog c).length ≤ ipc := by
          omega
        omega
      · rw [if_neg hcnt]
        refine (ih cur sel).trans ?_
        rw [List.length_cons, Nat.mul_succ]
        omega

theorem roundRobin_length (catalog : Catalog) (g : ℕ → ℕ) :
    ∀ (r cur : ℕ) (cycle : List String) (sel : List TestPrompt)
      (sbc : List (String × List TestPrompt)),
      ((roundRobin catalog g r cur cycle sel sbc).1).length
        + (roundRobin catalog g r cur cycle sel sbc).2.1 = sel.length + r := by
  intro r
  induction r with
  | zero => intro cur cycle sel sbc; simp [roundRobin]
  | succ r ih =>
    intro cur cycle sel sbc
    rw [roundRobin]
    cases hfu : findUsable catalog sbc cycle with
    | none => simp
    | some t =>
      obtain ⟨c, rest, unused⟩ := t
      simp only []
      have := ih (randChoice g cur unused).2
        (if 2 ≤ unused.length ∧ 0 < r then rest ++ [c] else rest)
        (sel ++ [(randChoice g cur unused).1])
        (sbcAppend sbc c (randChoice g cur unused).1)
      simp only [List.length_append, List.length_singleton] at this
      omega

theorem fillWithReplacement_length (catalog : Catalog) (avail : List String) (g : ℕ → ℕ)
    (hpool : (avail.flatMap (fun c => lookupCat catalog c)).isEmpty = false) :
    ∀ (r cur : ℕ) (sel : List TestPrompt),
      ((fillWithReplacement catalog avail g r cur sel).1).length = sel.length + r := by
  intro r
  induction r with
  | zero => intro cur sel; simp [fillWithReplacement]
  | succ r ih =>
    intro cur sel
    rw [fillWithReplacement]
    rw [if_neg (by rw [hpool]; exact Bool.false_ne_true)]
    rw [ih]
    simp only [List.length_append, List.length_singleton]
    omega

theorem selectFill_length (catalog : Catalog) (g : ℕ → ℕ) (n : ℕ)
    (avail : List String) (sel1 : List TestPrompt) (cur1 : ℕ)
    (hsel : sel1.length ≤ n)
    (c : String) (hc : c ∈ avail) (hcp : (lookupCat catalog c).isEmpty = false) :
    ((selectFill catalog g n avail sel1 cur1).1).length = n := by
  have havail : avail.isEmpty = false := by
    cases avail with
    | nil => cases hc
    | cons a l => rfl
  have hnonnil : lookupCat catalog c ≠ [] := by
    intro hnil
    rw [hnil] at hcp
    cases hcp
  have hpool : (avail.flatMap (fun x => lookupCat catalog x)).isEmpty = false := by
    obtain ⟨p, hp⟩ := List.exists_mem_of_ne_nil _ hnonnil
    have hmemp : p ∈ avail.flatMap (fun x => lookupCat catalog x) :=
      List.mem_flatMap.mpr ⟨c, hc, hp⟩
    cases hflat : avail.flatMap (fun x => lookupCat catalog x) with
    | nil => rw [hflat] at hmemp; cases hmemp
    | cons a l => rfl
  rw [selectFill]
  by_cases h1 : 0 < n - sel1.length
  · rw [if_pos ⟨h1, by rw [havail]; rfl⟩]
    have hs2 : ((perCategoryPhase catalog g ((n - sel1.length) / avail.length)
        avail cur1 sel1).1).length ≤ n := by
      refine (perCategoryPhase_length_le catalog g _ avail cur1 sel1).trans ?_
      have := Nat.div_mul_le_self (n - sel1.length) avail.length
      omega
    by_cases h2 : 0 < n - ((perCategoryPhase catalog g ((n - sel1.length) / avail.length)
        avail cur1 sel1).1).length
    · rw [if_pos h2]
      rw [fillWithReplacement_length catalog avail g hpool]
      have := roundRobin_length catalog g
        (n - ((perCategoryPhase catalog g ((n - sel1.length) / avail.length)
          avail cur1 sel1).1).length)
        (randShuffle g (perCategoryPhase catalog g ((n - sel1.length) / avail.length)
          avail cur1 sel1).2 avail).2
        (randShuffle g (perCategoryPhase catalog g ((n - sel1.length) / avail.length)
          avail cur1 sel1).2 avail).1
        (perCategoryPhase catalog g ((n - sel1.length) / avail.length) avail cur1 sel1).1
        (sbcInit avail (perCategoryPhase catalog g ((n - sel1.length) / avail.length)
          avail cur1 sel1).1)
      omega
    · rw [if_neg h2]
      omega
  · rw [if_neg (by intro hand; exact h1 hand.1)]
    show sel1.length = n
    omega

theorem select_balanced_prompts_length (catalog : Catalog) (g : ℕ → ℕ) (n : ℕ)
    (hn : 1 ≤ n) (hnodup : (catalog.map Prod.fst).Nodup)
    (c : String) (ps : List TestPrompt) (hmem : (c, ps) ∈ catalog)
    (hc : c ≠ "自定义") (hps : ps ≠ []) :
    (select_balanced_prompts catalog g n).length = n := by
  have hlook : lookupCat catalog c = ps := lookupCat_eq catalog c ps hnodup hmem
  have hcp : (lookupCat catalog c).isEmpty = false := by
    rw [hlook]
    cases ps with
    | nil => exact absurd rfl hps
    | cons a l => rfl
  have hcats : c ∈ (catalog.filter (fun kv => !kv.2.isEmpty)).map Prod.fst := by
    refine List.mem_map.mpr ⟨(c, ps), List.mem_filter.mpr ⟨hmem, ?_⟩, rfl⟩
    cases ps with
    | nil => exact absurd rfl hps
    | cons a l => rfl
  have hAC : ((catalog.filter (fun kv => !kv.2.isEmpty)).map Prod.fst).isEmpty = false := by
    cases hl : (catalog.filter (fun kv => !kv.2.isEmpty)).map Prod.fst with
    | nil => rw [hl] at hcats; cases hcats
    | cons a l => rfl
  simp only [select_balanced_prompts]
  rw [if_neg (by rw [hAC]; exact Bool.false_ne_true)]
  have hmax : max 1 (n / 5) ≤ n := by
    have := Nat.div_le_self n 5
    omega
  by_cases hcust : (lookupCat catalog "自定义").isEmpty
  · rw [if_pos hcust]
    rw [List.length_take, randShuffle_length]
    rw [selectFill_length catalog g n _ _ _ (by simp) c hcats hcp]
    omega
  · rw [if_neg hcust]
    have hsel1 : ((randSample g 0 (min (lookupCat catalog "自定义").length
        (max 1 (n / 5))) (lookupCat catalog "自定义")).1).length ≤ n := by
      rw [randSample_length]
      omega
    have hcerase : c ∈ ((catalog.filter (fun kv => !kv.2.isEmpty)).map Prod.fst).erase "自定义" :=
      (List.mem_erase_of_ne hc).mpr hcats
    rw [List.length_take, randShuffle_length]
    rw [selectFill_length catalog g n _ _ _ hsel1 c hcerase hcp]
    omega

/-! ## Supporting lemmas: parameter dict and report plumbing -/

theorem getParam_setParam_ne (ps : TestParams) (k k2 : String) (v : ParamVal)
    (h : (k == k2) = false) :
    getParam (setParam ps k v) k2 = getParam ps k2 := by
  rw [setParam]
  split
  · rename_i hany
    clear hany
    induction ps with
    | nil => rfl
    | cons kv rest ih =>
      rw [List.map_cons, getParam, getParam, List.find?_cons, List.find?_cons]
      by_cases hk : (kv.1 == k) = true
      · rw [if_pos hk]
        have hkv : (kv.1 == k2) = false := by
          have he : kv.1 = k := by simpa using hk
          rw [he]; exact h
        simp only [h, hkv]
        exact ih
      · rw [if_neg hk]
        cases hkv : (kv.1 == k2) with
        | true => simp only [hkv]
        | false => simp only [hkv]; exact ih
  · rename_i hany
    clear hany
    induction ps with
    | nil =>
      rw [List.nil_append, getParam, getParam, List.find?_cons]
      simp only [h]
    | cons kv rest ih =>
      rw [List.cons_append, getParam, getParam, List.find?_cons, List.find?_cons]
      cases hkv : (kv.1 == k2) with
      | true => rfl
      | false => exact ih

theorem getParam_setParam_self (ps : TestParams) (k : String) (v : ParamVal) :
    getParam (setParam ps k v) k = some v := by
  rw [setParam]
  split
  · rename_i hany
    induction ps with
    | nil => cases hany
    | cons kv rest ih =>
      rw [List.map_cons, getParam, List.find?_cons]
      by_cases hk : (kv.1 == k) = true
      · rw [if_pos hk]
        simp
      · rw [if_neg hk]
        rw [Bool.not_eq_true] at hk
        simp only [hk]
        apply ih
        rw [List.any_cons, hk] at hany
        simpa using hany
  · rename_i hany
    have hnone : ps.find? (fun kv => kv.1 == k) = none := by
      rw [List.find?_eq_none]
      intro x hx hpx
      exact hany (List.any_eq_true.mpr ⟨x, hx, hpx⟩)
    rw [getParam, List.find?_append, hnone]
    simp [List.find?_cons]

theorem pauseLoop_getParam (k : String)
    (h1 : ("paused" == k) = false) (h2 : ("completion_status" == k) = false) :
    ∀ (reads : List (Bool × Bool)) (ps : TestParams),
      getParam (pauseLoop reads ps) k = getParam ps k := by
  intro reads
  induction reads with
  | nil => intro ps; rfl
  | cons pc rest ih =>
    intro ps
    rw [pauseLoop]
    split
    · rw [ih, getParam_setParam_ne _ _ _ _ h2, getParam_setParam_ne _ _ _ _ h1]
    · rfl

theorem mkPerformanceReport_test_params (m : String) (si : List (String × String))
    (tp : TestParams) (rs : List TestResult) :
    (mkPerformanceReport m si tp rs).test_params = tp := by
  rw [mkPerformanceReport]
  split <;> rfl

theorem mkPerformanceReport_results (m : String) (si : List (String × String))
    (tp : TestParams) (rs : List TestResult) :
    (mkPerformanceReport m si tp rs).results = rs := by
  rw [mkPerformanceReport]
  split <;> rfl

theorem finalizeReport_results (rep : PerformanceReport) :
    (finalizeReport rep).results = rep.results := by
  rw [finalizeReport]
  cases hres : rep.results with
  | nil => exact hres
  | cons r0 t =>
    cases t with
    | nil => exact hres
    | cons r1 rest =>
      dsimp only
      split <;> split <;> simp_all

theorem finalizeReport_test_params_getParam (rep : PerformanceReport) (k : String)
    (h1 : ("model_load_time" == k) = false) (h2 : ("avg_latency" == k) = false) :
    getParam (finalizeReport rep).test_params k = getParam rep.test_params k := by
  rw [finalizeReport]
  cases hres : rep.results with
  | nil => rfl
  | cons r0 t =>
    cases t with
    | nil => rfl
    | cons r1 rest =>
      dsimp only
      split
      · split
        · rw [getParam_setParam_ne _ _ _ _ h2, getParam_setParam_ne _ _ _ _ h1]
        · rfl
      · split
        · rw [getParam_setParam_ne _ _ _ _ h2, getParam_setParam_ne _ _ _ _ h1]
        · rfl


/-! ## Supporting lemmas: the worker's round loop -/

theorem processSlots_length (env : WorkerEnv) (sched : WorkerSched)
    (C r : ℕ) (hns : ∀ s, sched.cancelAtSlot r s = false) :
    ∀ (l : List TestPrompt) (s : ℕ),
      ((processSlots env sched C r l s).1).length = l.length := by
  intro l
  induction l with
  | nil => intro s; rfl
  | cons p rest ih =>
    intro s
    rw [processSlots, hns s, if_neg Bool.false_ne_true]
    dsimp only
    rw [List.length_cons, List.length_cons, ih]

theorem processSlots_sig_shape (env : WorkerEnv) (sched : WorkerSched) (C r : ℕ) :
    ∀ (l : List TestPrompt) (s : ℕ) (sg : Signal),
      sg ∈ (processSlots env sched C r l s).2 →
      ∃ res lbl, sg = Signal.testRoundCompleted res lbl := by
  intro l
  induction l with
  | nil => intro s sg hm; cases hm
  | cons p rest ih =>
    intro s sg hm
    rw [processSlots] at hm
    by_cases hc : (sched.cancelAtSlot r s) = true
    · rw [if_pos hc] at hm; cases hm
    · rw [if_neg hc] at hm
      dsimp only at hm
      rcases List.mem_cons.mp hm with h | h
      · exact ⟨_, _, h⟩
      · exact ih (s + 1) sg h

theorem roundsLoop_results_length (env : WorkerEnv) (sched : WorkerSched)
    (C : ℕ) (prompts : List TestPrompt)
    (hnr : ∀ r, sched.cancelAtRound r = false)
    (hns : ∀ r s, sched.cancelAtSlot r s = false) :
    ∀ (fuel r : ℕ) (st : RunSt), (r + fuel) * C ≤ prompts.length →
      ((roundsLoop env sched C prompts r fuel st).results).length
        = st.results.length + fuel * C := by
  intro fuel
  induction fuel with
  | zero => intro r st h; simp [roundsLoop]
  | succ fuel ih =>
    intro r st h
    have hexp : (r + (fuel + 1)) * C = r * C + fuel * C + C := by ring
    have hle2 : (r + 1 + fuel) * C ≤ prompts.length := by
      have : (r + 1 + fuel) * C = r * C + fuel * C + C := by ring
      omega
    rw [roundsLoop, hnr r, if_neg Bool.false_ne_true]
    dsimp only
    rw [ih _ _ hle2]
    dsimp only
    rw [List.length_append,
      processSlots_length env sched C r (hns r), List.length_take, List.length_drop]
    have hmin : min C (prompts.length - r * C) = C := by omega
    rw [hmin]
    ring

theorem roundsLoop_sig_mem (env : WorkerEnv) (sched : WorkerSched)
    (C : ℕ) (prompts : List TestPrompt) :
    ∀ (fuel r : ℕ) (st : RunSt) (sg : Signal),
      sg ∈ (roundsLoop env sched C prompts r fuel st).sigs →
      sg ∈ st.sigs ∨ ∃ res lbl, sg = Signal.testRoundCompleted res lbl := by
  intro fuel
  induction fuel with
  | zero => intro r st sg hm; exact Or.inl hm
  | succ fuel ih =>
    intro r st sg hm
    rw [roundsLoop] at hm
    by_cases hc : (sched.cancelAtRound r) = true
    · rw [if_pos hc] at hm; exact Or.inl hm
    · rw [if_neg hc] at hm
      dsimp only at hm
      rcases ih _ _ _ hm with h | h
      · rcases List.mem_append.mp h with h2 | h2
        · exact Or.inl h2
        · exact Or.inr (processSlots_sig_shape env sched C r _ _ _ h2)
      · exact Or.inr h

theorem roundsLoop_getParam (env : WorkerEnv) (sched : WorkerSched)
    (C : ℕ) (prompts : List TestPrompt) (k : String)
    (h1 : ("paused" == k) = false) (h2 : ("completion_status" == k) = false) :
    ∀ (fuel r : ℕ) (st : RunSt),
      getParam (roundsLoop env sched C prompts r fuel st).params k
        = getParam st.params k := by
  intro fuel
  induction fuel with
  | zero => intro r st; rfl
  | succ fuel ih =>
    intro r st
    rw [roundsLoop]
    by_cases hc : (sched.cancelAtRound r) = true
    · rw [if_pos hc]
    · rw [if_neg hc]
      dsimp only
      rw [ih]
      exact pauseLoop_getParam k h1 h2 _ _

theorem processSlots_sched_eq (env : WorkerEnv) (sched sched2 : WorkerSched)
    (C r : ℕ) (hs : sched2.cancelAtSlot = sched.cancelAtSlot) :
    ∀ (l : List TestPrompt) (s : ℕ),
      processSlots env sched2 C r l s = processSlots env sched C r l s := by
  intro l
  induction l with
  | nil => intro s; rfl
  | cons p rest ih =>
    intro s
    rw [processSlots, processSlots, hs, ih]

theorem roundsLoop_sched_results_sigs (env : WorkerEnv) (sched sched2 : WorkerSched)
    (C : ℕ) (prompts : List TestPrompt)
    (hr : sched2.cancelAtRound = sched.cancelAtRound)
    (hs : sched2.cancelAtSlot = sched.cancelAtSlot) :
    ∀ (fuel r : ℕ) (st st2 : RunSt),
      st2.results = st.results → st2.sigs = st.sigs →
      (roundsLoop env sched2 C prompts r fuel st2).results
          = (roundsLoop env sched C prompts r fuel st).results
      ∧ (roundsLoop env sched2 C prompts r fuel st2).sigs
          = (roundsLoop env sched C prompts r fuel st).sigs := by
  intro fuel
  induction fuel with
  | zero => intro r st st2 hres hsig; exact ⟨hres, hsig⟩
  | succ fuel ih =>
    intro r st st2 hres hsig
    rw [roundsLoop, roundsLoop, hr]
    by_cases hc : (sched.cancelAtRound r) = true
    · rw [if_pos hc, if_pos hc]; exact ⟨hres, hsig⟩
    · rw [if_neg hc, if_neg hc]
      dsimp only
      apply ih
      · rw [processSlots_sched_eq env sched sched2 C r hs, hres]
      · rw [processSlots_sched_eq env sched sched2 C r hs, hsig]

theorem select_balanced_prompts_allEmpty (catalog : Catalog) (g : ℕ → ℕ) (n : ℕ)
    (h : ∀ kv ∈ catalog, kv.2 = ([] : List TestPrompt)) :
    select_balanced_prompts catalog g n = [] := by
  have hfilter : catalog.filter (fun kv => !kv.2.isEmpty) = [] := by
    rw [List.filter_eq_nil_iff]
    intro kv hkv
    rw [h kv hkv]
    decide
  rw [select_balanced_prompts, hfilter]
  rfl

/-! ## Claim theorems -/

/-- C3 (amended): for `n ≥ 1`, `select_balanced_prompts(n)` returns
exactly `n` prompts whenever at least one NON-CUSTOM category is
non-empty (custom prompts are reserved up to `min(customCount,
max(1, n/5))` slots, the rest spread across the non-empty categories);
with zero non-empty categories it returns the empty list.  When the
custom category is the only non-empty one, the function stops after the
reserved custom slots and can return fewer than `n` prompts (the
counterexample). -/
theorem claim_C3_select_balanced_length (catalog : Catalog) (g : ℕ → ℕ) (n : ℕ)
    (hn : 1 ≤ n) (hnodup : (catalog.map Prod.fst).Nodup) :
    ((∃ c ps, (c, ps) ∈ catalog ∧ c ≠ "自定义" ∧ ps ≠ []) →
      (select_balanced_prompts catalog g n).length = n)
    ∧ ((∀ kv ∈ catalog, kv.2 = ([] : List TestPrompt)) →
      select_balanced_prompts catalog g n = []) := by
  constructor
  · rintro ⟨c, ps, hmem, hc, hps⟩
    exact select_balanced_prompts_length catalog g n hn hnodup c ps hmem hc hps
  · intro hall
    exact select_balanced_prompts_allEmpty catalog g n hall

/-- C3 counterexample: in a catalog whose only non-empty category is the
custom one ("自定义", one prompt), `select_balanced_prompts(2)` returns a
single prompt, not 2, although the with-replacement pool is non-empty:
the claim "returns a list of exactly n prompts" fails. -/
theorem claim_C3_counterexample :
    (select_balanced_prompts customOnlyCatalog gZero 2).length ≠ 2 := by decide

/-- C3 witness: a concrete catalog with one non-custom category. -/
theorem claim_C3_witness :
    (select_balanced_prompts catalogDemo gZero 3).length = 3 :=
  (claim_C3_select_balanced_length catalogDemo gZero 3 (by decide) (by decide)).1
    ⟨"编程", [pDemo], by decide, by decide, by decide⟩

/-- C1: for a worker run with `rounds ≥ 1`, `concurrent_users ≥ 1` on a
catalog with at least one non-empty non-custom category (always true of
the worker's tester, whose constructor loads the built-in
`DEFAULT_PROMPTS`), whose concurrency is not degraded by the external
parallelism checks, and in which every cancellation read is false and
the run is never paused, the completed report holds exactly
`1 + rounds*concurrent_users` results — one warm-up result plus one per
(round, slot) pair — regardless of the per-task outcomes `env.outcome`
(errors and timeouts included). -/
theorem claim_C1_results_length (model : String) (catalog : Catalog)
    (rounds concurrent_users : ℕ) (bp : TestParams) (env : WorkerEnv)
    (sched : WorkerSched)
    (hR : 1 ≤ rounds) (hC : 1 ≤ concurrent_users)
    (hnodup : (catalog.map Prod.fst).Nodup)
    (c : String) (ps : List TestPrompt) (hmem : (c, ps) ∈ catalog)
    (hc : c ≠ "自定义") (hps : ps ≠ [])
    (hpar : env.parallelOk = true) (_hfatal : env.fatal = none)
    (hnr : ∀ r, sched.cancelAtRound r = false)
    (hns : ∀ r s, sched.cancelAtSlot r s = false)
    (_hnp : ∀ r, sched.pauseReads r = []) :
    (finalReport model catalog rounds concurrent_users bp env sched).results.length
      = 1 + rounds * concurrent_users := by
  rw [finalReport]
  try dsimp only
  rw [finalizeReport_results]
  try dsimp only
  rw [runState]
  try dsimp only
  rw [hpar]
  simp only [Bool.not_true, Bool.and_false, Bool.false_eq_true, if_false]
  have hlen : (select_balanced_prompts catalog env.pick (rounds * concurrent_users)).length
      = rounds * concurrent_users :=
    select_balanced_prompts_length catalog env.pick _ (Nat.mul_pos hR hC)
      hnodup c ps hmem hc hps
  rw [roundsLoop_results_length env sched concurrent_users _ hnr hns rounds 0 _
    (by rw [hlen, Nat.zero_add])]
  simp [Nat.add_comm]

/-- C1 witness: rounds = 2, concurrency = 2, all tasks succeed. -/
theorem claim_C1_witness :
    (finalReport "m" catalogDemo 2 2 [] envDemo schedIdle).results.length = 1 + 2 * 2 :=
  claim_C1_results_length "m" catalogDemo 2 2 [] envDemo schedIdle (by decide) (by decide)
    (by decide) "编程" [pDemo] (by decide) (by decide) (by decide) rfl rfl
    (fun _ => rfl) (fun _ _ => rfl) (fun _ => rfl)

/-- C2 (the code bug): `PerformanceTestWorker.run` never writes the key
`'cancelled'` into `test_params` — on no path, cancelled or not — so the
report handed to the completion handler always lacks it, and the
handler's `report.test_params.get('cancelled', False)` (performance_tab
line 1165), whose only purpose is to display the cancelled status, is
always falsy.  The claim (and the handler's own dead branch) expect
`test_params['cancelled'] == true` for a cancelled run. -/
theorem claim_C2_cancelled_never_set (model : String) (catalog : Catalog)
    (rounds concurrent_users : ℕ) (bp : TestParams) (env : WorkerEnv)
    (sched : WorkerSched)
    (hbp : getParam bp "cancelled" = none) :
    getParam (finalReport model catalog rounds concurrent_users bp env sched).test_params
      "cancelled" = none := by
  rw [finalReport]
  try dsimp only
  rw [finalizeReport_test_params_getParam _ _ (by decide) (by decide)]
  try dsimp only
  rw [runState]
  try dsimp only
  rw [roundsLoop_getParam _ _ _ _ _ (by decide) (by decide)]
  try dsimp only
  rw [getParam_setParam_ne _ _ _ _ (by decide), getParam_setParam_ne _ _ _ _ (by decide),
      getParam_setParam_ne _ _ _ _ (by decide)]
  exact hbp

/-- C2 witness, which is also the failing input of the claim: rounds=5,
concurrency=3, cancellation requested after round 1 fully completed.
The kept results are exactly the warm-up plus round 1's three results
(as the claim says), but `test_params['cancelled']` is absent — not
`true` as the claim requires. -/
theorem claim_C2_witness :
    getParam (finalReport "m" catalogDemo 5 3 [] envDemo
        schedCancelAfterRound1).test_params "cancelled" = none
    ∧ (finalReport "m" catalogDemo 5 3 [] envDemo
        schedCancelAfterRound1).results.length = 1 + 1 * 3 :=
  ⟨claim_C2_cancelled_never_set "m" catalogDemo 5 3 [] envDemo schedCancelAfterRound1 rfl,
   by decide⟩

/-- C9: the pause flag is read only at round boundaries, so (first
conjunct) the results accumulated by the run — and the emitted
round-completion signals, hence the round/slot numbering — are exactly
the same under an arbitrary pause/resume schedule as in the unpaused
run: results of rounds completed before a pause are unchanged and the
run resumes with the next round index.  Second conjunct: the pause-wait
loop `while is_paused and not is_cancelled` exits as soon as a read sees
the cancellation flag, whatever the pause flag says. -/
theorem claim_C9_pause_frame :
    (∀ (catalog : Catalog) (rounds concurrent_users : ℕ) (bp : TestParams)
        (env : WorkerEnv) (sched : WorkerSched) (pr : ℕ → List (Bool × Bool)),
        (runState catalog rounds concurrent_users bp env
            { sched with pauseReads := pr }).results
          = (runState catalog rounds concurrent_users bp env sched).results
        ∧ (runState catalog rounds concurrent_users bp env
            { sched with pauseReads := pr }).sigs
          = (runState catalog rounds concurrent_users bp env sched).sigs)
    ∧ (∀ (ps : TestParams) (b : Bool) (rest : List (Bool × Bool)),
        pauseLoop ((b, true) :: rest) ps = ps) := by
  constructor
  · intro catalog rounds concurrent_users bp env sched pr
    rw [runState, runState]
    try dsimp only
    exact roundsLoop_sched_results_sigs env sched { sched with pauseReads := pr }
      _ _ rfl rfl rounds 0 _ _ rfl rfl
  · intro ps b rest
    rw [pauseLoop]
    simp

/-- C10: every invocation of `run` emits exactly one terminal signal:
`test_completed` with the final report when the body does not raise —
for every cancellation/pause schedule and every per-task outcome, so
per-task errors and timeouts never reach `error_occurred` — and exactly
`error_occurred` when the body raises. -/
theorem claim_C10_terminal_signals (model : String) (catalog : Catalog)
    (rounds concurrent_users : ℕ) (bp : TestParams) (env : WorkerEnv)
    (sched : WorkerSched) :
    ((workerRun model catalog rounds concurrent_users bp env sched).countP
        (fun s => isTerminal s) = 1)
    ∧ (env.fatal = none →
        Signal.testCompleted (finalReport model catalog rounds concurrent_users bp env sched)
          ∈ workerRun model catalog rounds concurrent_users bp env sched
        ∧ ∀ m, Signal.errorOccurred m ∉ workerRun model catalog rounds concurrent_users bp env sched)
    ∧ (∀ m, env.fatal = some m →
        workerRun model catalog rounds concurrent_users bp env sched
          = [Signal.errorOccurred m]) := by
  have hshape : ∀ sg ∈ (runState catalog rounds concurrent_users bp env sched).sigs,
      isTerminal sg = false := by
    intro sg hm
    rw [runState] at hm
    try dsimp only at hm
    rcases roundsLoop_sig_mem env sched _ _ rounds 0 _ sg hm with h | ⟨res, lbl, rfl⟩
    · dsimp only at h
      rw [List.mem_singleton.mp h]
      rfl
    · rfl
  cases hf : env.fatal with
  | some m =>
    refine ⟨?_, ?_, ?_⟩
    · rw [workerRun, hf]
      rfl
    · intro hnone
      cases hnone
    · intro m2 hm2
      cases hm2
      rw [workerRun, hf]
  | none =>
    have htrace : workerRun model catalog rounds concurrent_users bp env sched
        = Signal.progressUpdated 0 (rounds * concurrent_users)
            :: (runState catalog rounds concurrent_users bp env sched).sigs
          ++ [Signal.progressUpdated (rounds * concurrent_users) (rounds * concurrent_users),
              Signal.testCompleted (finalReport model catalog rounds concurrent_users bp env sched)] := by
      rw [workerRun, hf]
    refine ⟨?_, fun _ => ⟨?_, ?_⟩, fun m hm => by cases hm⟩
    · rw [htrace]
      have h0 : (runState catalog rounds concurrent_users bp env sched).sigs.countP
          (fun s => isTerminal s) = 0 := by
        rw [List.countP_eq_zero]
        intro sg hm
        simp [hshape sg hm]
      rw [List.countP_append, List.countP_cons, h0]
      rfl
    · rw [htrace]
      exact List.mem_append_right _ (by simp)
    · intro m hm
      rw [htrace] at hm
      rcases List.mem_append.mp hm with h | h
      · rcases List.mem_cons.mp h with h2 | h2
        · cases h2
        · have := hshape _ h2
          simp [isTerminal] at this
      · simp at h

/-- C10 witness at a concrete normal run. -/
theorem claim_C10_witness :
    ((workerRun "m" catalogDemo 2 2 [] envDemo schedIdle).countP
        (fun s => isTerminal s) = 1)
    ∧ Signal.testCompleted (finalReport "m" catalogDemo 2 2 [] envDemo schedIdle)
        ∈ workerRun "m" catalogDemo 2 2 [] envDemo schedIdle :=
  ⟨(claim_C10_terminal_signals "m" catalogDemo 2 2 [] envDemo schedIdle).1,
   ((claim_C10_terminal_signals "m" catalogDemo 2 2 [] envDemo schedIdle).2.1 rfl).1⟩

/-- C4: for every stream that completes the chunk loop normally, the
returned `tokens_per_second` obeys the spec's trichotomy over the final
token count (`eval_count` override included) and the generation
duration, and the returned `total_tokens` is that final count; the
duration is divided by only when it is strictly positive, and every
other case — including a loop that raises — yields 0. -/
theorem claim_C4_tokens_per_second (prompt prompt_type : String) (timeout : ℕ)
    (s : StreamInput) :
    (∀ st, loopOutcome ("测试执行超时（超过" ++ toString timeout ++ "秒）") s
        = Except.ok st →
      (test_case prompt prompt_type timeout s).total_tokens = finalTokens st
      ∧ (1 < finalTokens st ∧ 0 < generationTime s st →
          (test_case prompt prompt_type timeout s).tokens_per_second
            = ((finalTokens st : ℚ) - 1) / generationTime s st)
      ∧ (finalTokens st = 1 ∧ 0 < generationTime s st →
          (test_case prompt prompt_type timeout s).tokens_per_second
            = 1 / generationTime s st)
      ∧ (finalTokens st = 0 ∨ generationTime s st ≤ 0 →
          (test_case prompt prompt_type timeout s).tokens_per_second = 0))
    ∧ (∀ m, loopOutcome ("测试执行超时（超过" ++ toString timeout ++ "秒）") s
        = Except.error m →
      (test_case prompt prompt_type timeout s).tokens_per_second = 0) := by
  constructor
  · intro st hok
    rw [test_case]
    try dsimp only
    rw [hok]
    try dsimp only
    refine ⟨rfl, ?_, ?_, ?_⟩
    · intro h
      rw [if_pos h]
    · intro h
      have h1 : finalTokens st = 1 := h.1
      have h2 : 0 < generationTime s st := h.2
      rw [if_neg (fun hand => absurd hand.1 (by omega)), if_pos ⟨h1, h2⟩]
    · intro h
      rcases h with h0 | hle
      · rw [if_neg (fun hand => absurd hand.1 (by omega)),
            if_neg (fun hand => absurd hand.1 (by omega))]
      · rw [if_neg (fun hand => absurd hand.2 (not_lt.mpr hle)),
            if_neg (fun hand => absurd hand.2 (not_lt.mpr hle))]
  · intro m hm
    rw [test_case]
    try dsimp only
    rw [hm]

/-- C4 witness: a stream with three text chunks, a server-reported
`eval_count` of 30 and `eval_duration` of 2s. -/
theorem claim_C4_witness :
    (test_case "p" "t" 5 streamOkDemo).tokens_per_second
      = ((finalTokens loopStateDemo : ℚ) - 1) / generationTime streamOkDemo loopStateDemo :=
  ((claim_C4_tokens_per_second "p" "t" 5 streamOkDemo).1 loopStateDemo rfl).2.1
    ⟨by decide, by norm_num [generationTime, loopStateDemo]⟩

/-- C5 (amended): `test_case` is total and contains failures: whenever
the chunk loop raises — a chunk received after the timeout fired, or
the stream raising any exception — the returned `TestResult` carries
the exception message in `error` and has `first_token_latency`,
`tokens_per_second`, `total_tokens` and `total_time` all zero.
However, a stream that completes normally always yields `error = none`,
even when a chunk carried a request-level `error` payload: the loop
never inspects the `error` key, so client-reported errors are silently
ignored rather than surfaced (the counterexample). -/
theorem claim_C5_error_containment (prompt prompt_type : String) (timeout : ℕ)
    (s : StreamInput) :
    (∀ m, loopOutcome ("测试执行超时（超过" ++ toString timeout ++ "秒）") s
        = Except.error m →
      (test_case prompt prompt_type timeout s).error = some m
      ∧ (test_case prompt prompt_type timeout s).first_token_latency = 0
      ∧ (test_case prompt prompt_type timeout s).tokens_per_second = 0
      ∧ (test_case prompt prompt_type timeout s).total_tokens = 0
      ∧ (test_case prompt prompt_type timeout s).total_time = 0)
    ∧ (∀ st, loopOutcome ("测试执行超时（超过" ++ toString timeout ++ "秒）") s
        = Except.ok st →
      (test_case prompt prompt_type timeout s).error = none) := by
  constructor
  · intro m hm
    rw [test_case]
    try dsimp only
    rw [hm]
    exact ⟨rfl, rfl, rfl, rfl, rfl⟩
  · intro st hst
    rw [test_case]
    try dsimp only
    rw [hst]

/-- C5 counterexample: a stream whose only chunk is a client-reported
request-level error (`{"error": ...}`) and which then ends normally
produces a `TestResult` with `error = none` — the claim says a
client-reported error yields a result whose error field is set. -/
theorem claim_C5_counterexample :
    (test_case "p" "未分类" 5 streamErrDemo).error = none
    ∧ chunkErrDemo.error = some "connection refused" := ⟨rfl, rfl⟩

/-- C5 witness: a chunk observed after the timeout fired raises
`TimeoutError`, which is contained as an error result with zero
metrics. -/
theorem claim_C5_witness :
    (test_case "p" "t" 5 streamTimeoutDemo).error = some "测试执行超时（超过5秒）"
    ∧ (test_case "p" "t" 5 streamTimeoutDemo).tokens_per_second = 0
    ∧ (test_case "p" "t" 5 streamTimeoutDemo).total_tokens = 0 :=
  have h := (claim_C5_error_containment "p" "t" 5 streamTimeoutDemo).1
    "测试执行超时（超过5秒）" rfl
  ⟨h.1, h.2.2.1, h.2.2.2.1⟩

/-- C6 counterexample: a report built by the `PerformanceReport`
constructor (`__post_init__`) from one error-free result with average
exactly 60 tokens/s is rated 极佳 ("excellent"), not 优秀 ("good"):
that rating site uses inclusive (`>=`) thresholds, refuting the claim
that every rating interface is strictly greater-than. -/
theorem claim_C6_counterexample :
    (postInitProbe 60).performance_rating = "极佳" ∧ "极佳" ≠ "优秀" := by
  constructor
  · norm_num [postInitProbe, mkPerformanceReport, okResultDemo, errFalsy]
  · decide

/-- C6 (amended): the worker's final-report computation uses strict
thresholds — 61→极佳, 60→优秀, 31→优秀, 30→良好, 11→良好, 10→较差 —
while `PerformanceReport.__post_init__` uses inclusive ones — 60→极佳,
30→优秀, 10→良好, 9→较差. -/
theorem claim_C6_rating_thresholds :
    (ratingProbe 61).performance_rating = "极佳"
    ∧ (ratingProbe 60).performance_rating = "优秀"
    ∧ (ratingProbe 31).performance_rating = "优秀"
    ∧ (ratingProbe 30).performance_rating = "良好"
    ∧ (ratingProbe 11).performance_rating = "良好"
    ∧ (ratingProbe 10).performance_rating = "较差"
    ∧ (postInitProbe 60).performance_rating = "极佳"
    ∧ (postInitProbe 30).performance_rating = "优秀"
    ∧ (postInitProbe 10).performance_rating = "良好"
    ∧ (postInitProbe 9).performance_rating = "较差" := by
  norm_num [ratingProbe, postInitProbe, finalizeReport, mkPerformanceReport,
    warmupDemo, okResultDemo, errFalsy]

/-- C7 counterexample: with results `[warm-up, r1, r2]` where `r1` has
no error but zero throughput and `r2` has throughput 50, the worker's
final average is 50 — the mean over the non-warm-up non-error results
(the claim's definition, `specAvgTps`) would be 25. -/
theorem claim_C7_counterexample :
    (finalizeReport repC7).avg_tokens_per_second ≠ specAvgTps repC7.results := by
  norm_num [repC7, finalizeReport, specAvgTps, warmupDemo, okResultDemo,
    zeroTpsResultDemo, errFalsy]

/-- C7 (amended): the completed report's aggregates are arithmetic
means over exactly the non-warm-up results with falsy error AND
strictly positive tokens/sec (`[r for r in results[1:] if not r.error
and r.tokens_per_second > 0]`), not over all non-error ones; when no
result qualifies, the averages stay 0 and the rating stays at the
unrated default 未评级. -/
theorem claim_C7_aggregates (rep : PerformanceReport) (r0 : TestResult)
    (tail : List TestResult) (hres : rep.results = r0 :: tail)
    (havg1 : rep.avg_first_token_latency = 0)
    (havg2 : rep.avg_tokens_per_second = 0)
    (hrat : rep.performance_rating = "未评级") :
    (tail.filter (fun r => errFalsy r && decide (0 < r.tokens_per_second)) ≠ [] →
      (finalizeReport rep).avg_first_token_latency
        = ((tail.filter (fun r => errFalsy r && decide (0 < r.tokens_per_second))).map
            (fun r => r.first_token_latency)).sum
          / ((tail.filter (fun r => errFalsy r && decide (0 < r.tokens_per_second))).length : ℚ)
      ∧ (finalizeReport rep).avg_tokens_per_second
        = ((tail.filter (fun r => errFalsy r && decide (0 < r.tokens_per_second))).map
            (fun r => r.tokens_per_second)).sum
          / ((tail.filter (fun r => errFalsy r && decide (0 < r.tokens_per_second))).length : ℚ))
    ∧ (tail.filter (fun r => errFalsy r && decide (0 < r.tokens_per_second)) = [] →
      (finalizeReport rep).avg_first_token_latency = 0
      ∧ (finalizeReport rep).avg_tokens_per_second = 0
      ∧ (finalizeReport rep).performance_rating = "未评级") := by
  cases tail with
  | nil =>
    constructor
    · intro hne; exact absurd rfl hne
    · intro _
      have hfr : finalizeReport rep = rep := by rw [finalizeReport, hres]
      rw [hfr]
      exact ⟨havg1, havg2, hrat⟩
  | cons r1 rest =>
    rw [finalizeReport, hres]
    try dsimp only
    constructor
    · intro hne
      have hb : (!((r1 :: rest).filter
          (fun r => errFalsy r && decide (0 < r.tokens_per_second))).isEmpty) = true := by
        cases hflt : (r1 :: rest).filter
            (fun r => errFalsy r && decide (0 < r.tokens_per_second)) with
        | nil => exact absurd hflt hne
        | cons a l => rfl
      rw [if_pos hb]
      exact ⟨rfl, rfl⟩
    · intro hemp
      have hb : (!((r1 :: rest).filter
          (fun r => errFalsy r && decide (0 < r.tokens_per_second))).isEmpty) = false := by
        rw [hemp]; rfl
      rw [if_neg (by rw [hb]; exact Bool.false_ne_true)]
      split <;> exact ⟨havg1, havg2, hrat⟩

/-- C7 witness: the counterexample report, through the amended claim. -/
theorem claim_C7_witness :
    (finalizeReport repC7).avg_first_token_latency
      = (([zeroTpsResultDemo, okResultDemo].filter
          (fun r => errFalsy r && decide (0 < r.tokens_per_second))).map
            (fun r => r.first_token_latency)).sum
        / (([zeroTpsResultDemo, okResultDemo].filter
          (fun r => errFalsy r && decide (0 < r.tokens_per_second))).length : ℚ) :=
  ((claim_C7_aggregates repC7 warmupDemo [zeroTpsResultDemo, okResultDemo]
    rfl rfl rfl rfl).1 (by decide)).1

/-- C8 counterexample: with results `[warm-up(1000ms), error(0ms),
ok(500ms)]` the code's `model_load_time` is `(1000-500)/1000 = 0.5 s`
(mean over POSITIVE latencies only), while the claim's formula
(`specModelLoadTime`, mean over all non-warm-up latencies) gives
`max(0, 1000-250)/1000 = 0.75 s`. -/
theorem claim_C8_counterexample :
    getParam (finalizeReport repC8).test_params "model_load_time"
      ≠ (specModelLoadTime repC8.results).map ParamVal.num := by
  norm_num [repC8, finalizeReport, specModelLoadTime, warmupDemo, okResultDemo,
    okLatency500Demo, errResultDemo, errFalsy, getParam, setParam, List.find?]

/-- C8 (amended): when some non-warm-up result has a POSITIVE
first-token latency, the completed report's
`test_params['model_load_time']` is
`max(0, warmupLatency - mean(positive non-warm-up latencies)) / 1000`,
which is never negative; otherwise (no non-warm-up results, or all
their latencies are 0, e.g. errors) the key is left unset. -/
theorem claim_C8_model_load_time (rep : PerformanceReport) (r0 : TestResult)
    (tail : List TestResult) (hres : rep.results = r0 :: tail)
    (hkey : getParam rep.test_params "model_load_time" = none) :
    (tail.filter (fun r => decide (0 < r.first_token_latency)) ≠ [] →
      getParam (finalizeReport rep).test_params "model_load_time"
        = some (ParamVal.num (max 0 (r0.first_token_latency
            - ((tail.filter (fun r => decide (0 < r.first_token_latency))).map
                (fun r => r.first_token_latency)).sum
              / (((tail.filter (fun r => decide (0 < r.first_token_latency))).map
                (fun r => r.first_token_latency)).length : ℚ)) / 1000))
      ∧ 0 ≤ max 0 (r0.first_token_latency
            - ((tail.filter (fun r => decide (0 < r.first_token_latency))).map
                (fun r => r.first_token_latency)).sum
              / (((tail.filter (fun r => decide (0 < r.first_token_latency))).map
                (fun r => r.first_token_latency)).length : ℚ)) / 1000)
    ∧ (tail.filter (fun r => decide (0 < r.first_token_latency)) = [] →
      getParam (finalizeReport rep).test_params "model_load_time" = none) := by
  cases tail with
  | nil =>
    constructor
    · intro hne; exact absurd rfl hne
    · intro _
      have hfr : finalizeReport rep = rep := by rw [finalizeReport, hres]
      rw [hfr]
      exact hkey
  | cons r1 rest =>
    rw [finalizeReport, hres]
    try dsimp only
    constructor
    · intro hne
      have hb : (!(((r1 :: rest).filter (fun r => decide (0 < r.first_token_latency))).map
          (fun r => r.first_token_latency)).isEmpty) = true := by
        cases hflt : (r1 :: rest).filter (fun r => decide (0 < r.first_token_latency)) with
        | nil => exact absurd hflt hne
        | cons a l => rfl
      rw [if_pos hb]
      constructor
      · split <;>
          (rw [getParam_setParam_ne _ _ _ _ (by decide)]
           exact getParam_setParam_self _ _ _)
      · exact div_nonneg (le_max_left 0 _) (by norm_num)
    · intro hemp
      have hb : (!(((r1 :: rest).filter (fun r => decide (0 < r.first_token_latency))).map
          (fun r => r.first_token_latency)).isEmpty) = false := by
        rw [hemp]; rfl
      have hlatneg : ¬((!(((r1 :: rest).filter
          (fun r => decide (0 < r.first_token_latency))).map
          (fun r => r.first_token_latency)).isEmpty) = true) := by
        rw [hb]; exact Bool.false_ne_true
      rw [if_neg hlatneg]
      split <;> exact hkey

/-- C8 witness: the counterexample report, through the amended claim. -/
theorem claim_C8_witness :
    getParam (finalizeReport repC8).test_params "model_load_time"
      = some (ParamVal.num (max 0 (warmupDemo.first_token_latency
          - (([errResultDemo, okLatency500Demo].filter
              (fun r => decide (0 < r.first_token_latency))).map
                (fun r => r.first_token_latency)).sum
            / ((([errResultDemo, okLatency500Demo].filter
              (fun r => decide (0 < r.first_token_latency))).map
                (fun r => r.first_token_latency)).length : ℚ)) / 1000)) :=
  ((claim_C8_model_load_time repC8 warmupDemo [errResultDemo, okLatency500Demo]
    rfl rfl).1 (by decide)).1

end OllamaMonitor
